import Mathlib

/-!
Verification of the round-based survival simulation (`game.py`).

Positions are integer pairs, the board is `[0, N) × [0, N)`.  Python
integers are embedded as `ℤ`; the per-unit speed (a small non-negative
integer) as `ℕ`.  Randomness (missile spawns, direction sampling,
position draws) is threaded explicitly as parameters, with the
contracts of the random primitives (`randrange(0, N)` yields a value in
`[0, N)`, `randint(0, 4)` yields a value in `[0, 4]`,
`random.sample(directions, 8)` yields a permutation) as hypotheses.
RPC calls are modelled by explicit oracles; a call that raises
(unreachable peer) is an `Except.error`.
-/

namespace WarGame

/-- `MAX_SPEED = 4` from `game.py`. -/
def MAX_SPEED : ℕ := 4

/-- `MIN_BOARD_SIZE = 8` from `game.py`. -/
def MIN_BOARD_SIZE : ℤ := 8

/-- `MIN_SOLDIERS = 3` from `game.py`. -/
def MIN_SOLDIERS : ℤ := 3

/-- Both coordinates lie in `[0, N)` (the board). -/
def inBoundsZ (p : ℤ × ℤ) (N : ℤ) : Prop :=
  0 ≤ p.1 ∧ p.1 < N ∧ 0 ≤ p.2 ∧ p.2 < N

instance (p : ℤ × ℤ) (N : ℤ) : Decidable (inBoundsZ p N) := by
  unfold inBoundsZ; infer_instance

/-- `is_position_in_blast_radius` from `game.py`:
`max(0, mx - t + 1) <= px <= min(mx + t - 1, N - 1)` on each axis. -/
def is_position_in_blast_radius (position : ℤ × ℤ) (missile_type : ℤ)
    (missile_position : ℤ × ℤ) (board_size : ℤ) : Bool :=
  decide (max 0 (missile_position.1 - missile_type + 1) ≤ position.1 ∧
    position.1 ≤ min (missile_position.1 + missile_type - 1) (board_size - 1) ∧
    max 0 (missile_position.2 - missile_type + 1) ≤ position.2 ∧
    position.2 ≤ min (missile_position.2 + missile_type - 1) (board_size - 1))

/-- The eight compass directions, in the order `game.py` lists them. -/
def directions : List (ℤ × ℤ) :=
  [(-1, 0), (-1, 1), (0, 1), (1, 1), (1, 0), (1, -1), (0, -1), (-1, -1)]

/-- Per-unit state: the attributes of class `Soldier` in `game.py`. -/
structure Soldier where
  board_size : ℤ
  sid : ℤ
  speed : ℕ
  position : ℤ × ℤ
  was_hit : Bool
  is_alive : Bool
  is_promoted : Bool
  game_over : Bool
  deriving DecidableEq

/-- `Soldier.__init__`: sets the flags and draws a speed
(`random.randint(0, MAX_SPEED)`, passed here as `speedDraw`).  Python
leaves `board_size`, `sid` and `position` unassigned until
`StartupStatus`; they are given placeholder values here and no claim
reads them before they are assigned. -/
def Soldier.init (speedDraw : ℕ) : Soldier :=
  { board_size := 0
    sid := 0
    speed := speedDraw
    position := (0, 0)
    was_hit := false
    is_alive := true
    is_promoted := false
    game_over := false }

/-- The `while eff_speed > 0 and is_diagonal` loop of
`Soldier.take_shelter`: starting from the full speed, decrement until
`position + eff_speed · direction` is inside the board; `none` when the
loop exhausts the speed (i.e. `eff_speed` reaches `0`). -/
def diagSearch (position d : ℤ × ℤ) (board_size : ℤ) : ℕ → Option (ℤ × ℤ)
  | 0 => none
  | e + 1 =>
    let np : ℤ × ℤ := (position.1 + ((e : ℤ) + 1) * d.1, position.2 + ((e : ℤ) + 1) * d.2)
    if inBoundsZ np board_size then some np else diagSearch position d board_size e

/-- One iteration of the `for direction in random.sample(...)` loop in
`Soldier.take_shelter`: the candidate destination for one direction, or
`none` when the direction is skipped (`continue`) or the candidate is
still inside the blast radius. -/
def tryDirection (position : ℤ × ℤ) (speed : ℕ) (d : ℤ × ℤ) (missile_type : ℤ)
    (missile_position : ℤ × ℤ) (board_size : ℤ) : Option (ℤ × ℤ) :=
  if d.1 ≠ 0 ∧ d.2 ≠ 0 then
    match diagSearch position d board_size speed with
    | none => none
    | some np =>
      if is_position_in_blast_radius np missile_type missile_position board_size then none
      else some np
  else
    if speed = 0 then none
    else
      let np : ℤ × ℤ :=
        (max 0 (min (position.1 + (speed : ℤ) * d.1) (board_size - 1)),
         max 0 (min (position.2 + (speed : ℤ) * d.2) (board_size - 1)))
      if is_position_in_blast_radius np missile_type missile_position board_size then none
      else some np

/-- The whole direction loop of `Soldier.take_shelter`: the first
direction (in the sampled order) yielding a safe in-bounds candidate
wins; `none` when every direction fails. -/
def findEscape (position : ℤ × ℤ) (speed : ℕ) (missile_type : ℤ)
    (missile_position : ℤ × ℤ) (board_size : ℤ) : List (ℤ × ℤ) → Option (ℤ × ℤ)
  | [] => none
  | d :: ds =>
    match tryDirection position speed d missile_type missile_position board_size with
    | some np => some np
    | none => findEscape position speed missile_type missile_position board_size ds

/-- `Soldier.take_shelter` from `game.py`.  `order` is the list produced
by `random.sample(directions, len(directions))`. -/
def Soldier.take_shelter (s : Soldier) (missile_type : ℤ) (missile_position : ℤ × ℤ)
    (order : List (ℤ × ℤ)) : Soldier :=
  if ¬ is_position_in_blast_radius s.position missile_type missile_position s.board_size then s
  else if s.speed = 0 then { s with was_hit := true }
  else
    match findEscape s.position s.speed missile_type missile_position s.board_size order with
    | some np => { s with position := np, was_hit := false }
    | none => { s with was_hit := true }

/-- One roster entry maintained by the commander (`SoldierMetadata` in
`game.py`). -/
structure SoldierMetadata where
  sid : ℤ
  addr : String
  position : ℤ × ℤ
  deriving DecidableEq

/-- The payload of a `RoundStatus` reply (`war_pb2.RoundStatusResponse`). -/
structure RoundStatusResponse where
  soldier_id : ℤ
  was_hit : Bool
  updated_position : ℤ × ℤ
  deriving DecidableEq

/-- `War.StartupStatus`: the soldier records the announced id and board
size and draws a random position (`random.randrange(0, board_size)`
twice, passed here as `rx, ry`); the reply carries that position. -/
def War.StartupStatus (s : Soldier) (soldier_id board_size rx ry : ℤ) :
    Soldier × (ℤ × ℤ) :=
  let s1 : Soldier := { s with sid := soldier_id, board_size := board_size,
                               position := (rx, ry) }
  (s1, s1.position)

/-- `War.RoundStatus`: sets `is_alive = not was_hit` and replies with
`(soldier_id, was_hit, updated_position)`. -/
def War.RoundStatus (s : Soldier) : Soldier × RoundStatusResponse :=
  let s1 : Soldier := { s with is_alive := !s.was_hit }
  (s1, { soldier_id := s.sid, was_hit := s.was_hit, updated_position := s.position })

/-- `War.GameOver`: sets the `game_over` flag. -/
def War.GameOver (s : Soldier) : Soldier :=
  { s with game_over := true }

/-- Commander state: the extra attributes of class `Commander`.
The display-only fields `_missile_type`/`_missile_pos` (used solely by
`print_layout`) are not modelled. -/
structure Commander extends Soldier where
  time_to_missile : ℤ
  game_time : ℤ
  cur_time : ℤ
  num_soldiers : ℤ
  alive_soldiers : List SoldierMetadata
  deriving DecidableEq

/-- `Commander.__init__` with `is_initial_commander = False` (the path
taken on promotion): `super().__init__()` draws a fresh speed
(`speedDraw`), then `sid = 0` and the five parameters are stored.  The
roster is assigned separately by the caller (`War.NewCommander`); here
it starts empty. -/
def Commander.init (board_size num_soldiers time_to_missile game_time cur_time : ℤ)
    (speedDraw : ℕ) : Commander :=
  { toSoldier := { Soldier.init speedDraw with sid := 0, board_size := board_size }
    time_to_missile := time_to_missile
    game_time := game_time
    cur_time := cur_time
    num_soldiers := num_soldiers
    alive_soldiers := [] }

/-- `Commander.set_position`: draw a random cell; for each roster member
whose position equals the current candidate, redraw.  `draws` is the
stream of `(randrange, randrange)` pairs, consumed in order. -/
def Commander.set_position (c : Commander) (draws : ℕ → ℤ × ℤ) : Commander :=
  let start : (ℤ × ℤ) × ℕ := (draws 0, 1)
  let p := (c.alive_soldiers.foldl
    (fun (acc : (ℤ × ℤ) × ℕ) m =>
      if acc.1 = m.position then (draws acc.2, acc.2 + 1) else acc) start).1
  { c with position := p }

/-- The loop body of `Commander.send_round_status_message`: call each
roster member in order; an unreachable member (oracle returns `none`)
raises, which aborts the whole collection (`Except.error`).  Otherwise
return the roster with non-hit positions updated, together with the
`to_delete` list of ids that reported `was_hit`. -/
def collectStatus (call : SoldierMetadata → Option RoundStatusResponse) :
    List SoldierMetadata → Except Unit (List SoldierMetadata × List ℤ)
  | [] => Except.ok ([], [])
  | m :: ms =>
    match call m with
    | none => Except.error ()
    | some resp =>
      match collectStatus call ms with
      | Except.error () => Except.error ()
      | Except.ok (ms1, dels) =>
        if resp.was_hit then Except.ok (m :: ms1, m.sid :: dels)
        else Except.ok ({ m with position := resp.updated_position } :: ms1, dels)

/-- `Commander.send_round_status_message`: collect statuses, then drop
every roster entry whose id is in `to_delete`. -/
def Commander.send_round_status_message (roster : List SoldierMetadata)
    (call : SoldierMetadata → Option RoundStatusResponse) :
    Except Unit (List SoldierMetadata) :=
  match collectStatus call roster with
  | Except.error () => Except.error ()
  | Except.ok (ms, dels) => Except.ok (ms.filter (fun m => decide (m.sid ∉ dels)))

/-- The roster shipped by `Commander.send_new_commander_message`: every
current entry except those with the chosen member's id. -/
def Commander.send_new_commander_payload (roster : List SoldierMetadata)
    (new_commander : SoldierMetadata) : List SoldierMetadata :=
  roster.filter (fun m => decide (m.sid ≠ new_commander.sid))

/-- The payload of a `NewCommander` promotion call
(`war_pb2.NewCommanderRequest`). -/
structure NewCommanderRequest where
  board_size : ℤ
  num_soldiers : ℤ
  time_to_missile : ℤ
  game_time : ℤ
  cur_time : ℤ
  alive_soldiers : List SoldierMetadata
  deriving DecidableEq

/-- `War.NewCommander`: mark the soldier promoted, build a fresh
`Commander` (whose `__init__` draws a new speed, `speedDraw`), store the
received roster minus any entry carrying the soldier's own id, and copy
the soldier's position (only the position) onto the commander. -/
def War.NewCommander (s : Soldier) (req : NewCommanderRequest) (speedDraw : ℕ) :
    Soldier × Commander :=
  let s1 : Soldier := { s with is_promoted := true }
  let c := Commander.init req.board_size req.num_soldiers req.time_to_missile
    req.game_time req.cur_time speedDraw
  let c1 : Commander :=
    { c with
      alive_soldiers := req.alive_soldiers.filter (fun m => decide (m.sid ≠ s.sid))
      toSoldier := { c.toSoldier with position := s.position } }
  (s1, c1)

/-- The three configuration errors the `__main__` commander branch can
report. -/
inductive StartupError where
  | tooFewSoldiers
  | boardTooSmall
  | cadenceExceedsTime
  deriving DecidableEq

/-- The `__main__` commander-branch configuration checks, exactly as in
`game.py`: `M < MIN_SOLDIERS` prints an error but (unlike the other two
checks) is not followed by `sys.exit(1)`; `N < MIN_BOARD_SIZE` and
`t > T` print and exit.  Returns the errors reported and whether the
process proceeds to construct and run the commander. -/
def commander_startup_checks (M N t T : ℤ) : List StartupError × Bool :=
  let errs := if M < MIN_SOLDIERS then [StartupError.tooFewSoldiers] else []
  if N < MIN_BOARD_SIZE then (errs ++ [StartupError.boardTooSmall], false)
  else if T < t then (errs ++ [StartupError.cadenceExceedsTime], false)
  else (errs, true)

/-- The randomness and RPC replies consumed by one round of
`Commander.run_game_loop`: the spawned missile, the commander's own
sampled direction order, the `RoundStatus` replies (`none` for an
unreachable member), and the index used by `random.choice` in
`send_new_commander_message`. -/
structure RoundEnv where
  missile_type : ℤ
  missile_pos : ℤ × ℤ
  dirOrder : List (ℤ × ℤ)
  responses : SoldierMetadata → Option RoundStatusResponse
  choiceIdx : ℕ

/-- Observable RPC fan-out events of the commander's loop. -/
inductive Event where
  | missileNotify (sid : ℤ) (missile_type : ℤ) (missile_pos : ℤ × ℤ)
  | gameOver (sid : ℤ)
  | newCommander (sid : ℤ)
  deriving DecidableEq

/-- One iteration of the `while` body in `Commander.run_game_loop`:
`send_missile_approaching_message` (commander takes shelter, each
roster member is notified), the impact sleep, `cur_time` advance,
`send_round_status_message` (whose failure aborts the process),
`is_alive = not was_hit`, and the end-of-game check. -/
def roundStep (c : Commander) (env : RoundEnv) :
    Except Unit (Commander × List Event) :=
  let sold := Soldier.take_shelter c.toSoldier env.missile_type env.missile_pos env.dirOrder
  let evs := c.alive_soldiers.map
    (fun m => Event.missileNotify m.sid env.missile_type env.missile_pos)
  let c1 : Commander := { c with toSoldier := sold }
  let c2 : Commander := { c1 with cur_time := c1.cur_time + c1.time_to_missile }
  match Commander.send_round_status_message c2.alive_soldiers env.responses with
  | Except.error () => Except.error ()
  | Except.ok roster1 =>
    let c3 : Commander := { c2 with alive_soldiers := roster1 }
    let c4 : Commander := { c3 with toSoldier := { c3.toSoldier with is_alive := !c3.was_hit } }
    let c5 : Commander :=
      if c4.game_time ≤ c4.cur_time then
        { c4 with toSoldier := { c4.toSoldier with game_over := true } }
      else c4
    Except.ok (c5, evs)

/-- How a commander's loop run ends. -/
inductive RunOutcome where
  | outOfFuel
  | crashed
  | finished (c : Commander)
  deriving DecidableEq

/-- Fallback roster entry for `List.getD` (never used when the roster is
non-empty and the index is reduced modulo its length). -/
def dummyMetadata : SoldierMetadata :=
  { sid := 0, addr := "", position := (0, 0) }

/-- `Commander.run_game_loop`, fuel-indexed: run `while not game_over
and is_alive` rounds (environment `envs k` for the round numbered `k`),
then the post-loop branching: a surviving commander sends `GameOver` to
every remaining roster member; an eliminated commander with a non-empty
roster promotes a randomly chosen member.  Returns the outcome and the
fan-out events in order. -/
def Commander.run_game_loop (envs : ℕ → RoundEnv) :
    ℕ → ℕ → Commander → RunOutcome × List Event
  | 0, _, _ => (RunOutcome.outOfFuel, [])
  | fuel + 1, k, c =>
    if c.game_over = false ∧ c.is_alive = true then
      match roundStep c (envs k) with
      | Except.error () => (RunOutcome.crashed, [])
      | Except.ok (c1, evs) =>
        let rest := Commander.run_game_loop envs fuel (k + 1) c1
        (rest.1, evs ++ rest.2)
    else
      if c.is_alive then
        (RunOutcome.finished c, c.alive_soldiers.map (fun m => Event.gameOver m.sid))
      else if c.alive_soldiers.isEmpty then (RunOutcome.finished c, [])
      else
        let chosen := c.alive_soldiers.getD ((envs k).choiceIdx % c.alive_soldiers.length)
          dummyMetadata
        (RunOutcome.finished c, [Event.newCommander chosen.sid])

/-- Blast-radius membership as the specification words it: the point
lies in the axis-aligned square of half-width `kind − 1` centered on the
hazard center, intersected with the board `[0, N)²`. -/
def inBlastRadius_spec (p : ℤ × ℤ) (kind : ℤ) (center : ℤ × ℤ) (N : ℤ) : Prop :=
  center.1 - (kind - 1) ≤ p.1 ∧ p.1 ≤ center.1 + (kind - 1) ∧
  center.2 - (kind - 1) ≤ p.2 ∧ p.2 ≤ center.2 + (kind - 1) ∧
  inBoundsZ p N

/-! Concrete values used by counterexamples and witnesses. -/

/-- A speed-0 soldier standing at the hazard center of an 8×8 board. -/
def soldierDemo : Soldier :=
  { board_size := 8, sid := 1, speed := 0, position := (5, 5),
    was_hit := false, is_alive := true, is_promoted := false, game_over := false }

/-- A speed-4 soldier, used to observe the speed change on promotion. -/
def soldierSpeed4 : Soldier :=
  { soldierDemo with speed := 4, sid := 3 }

/-- A promotion payload with an empty roster. -/
def reqDemo : NewCommanderRequest :=
  { board_size := 8, num_soldiers := 5, time_to_missile := 1, game_time := 10,
    cur_time := 5, alive_soldiers := [] }

/-- A single roster entry. -/
def metaDemo : SoldierMetadata :=
  { sid := 1, addr := "localhost:50051", position := (0, 0) }

/-- A two-member roster. -/
def rosterDemo : List SoldierMetadata :=
  [metaDemo, { sid := 2, addr := "localhost:50052", position := (3, 3) }]

/-- The member of `rosterDemo` chosen for promotion. -/
def chosenDemo : SoldierMetadata :=
  { sid := 2, addr := "localhost:50052", position := (3, 3) }

/-- The soldier behind `chosenDemo` (same id). -/
def promotedDemo : Soldier :=
  { soldierDemo with sid := 2, position := (3, 3), speed := 1 }

/-- The promotion payload actually built from `rosterDemo` for
`chosenDemo`. -/
def reqDemo2 : NewCommanderRequest :=
  { board_size := 8, num_soldiers := 5, time_to_missile := 1, game_time := 10,
    cur_time := 5,
    alive_soldiers := Commander.send_new_commander_payload rosterDemo chosenDemo }

/-- A commander one tick before the end of the game, out of the way of
`envDemo`'s missile, with one live soldier. -/
def cDemo : Commander :=
  { toSoldier :=
      { board_size := 8, sid := 0, speed := 1, position := (0, 0),
        was_hit := false, is_alive := true, is_promoted := false, game_over := false }
    time_to_missile := 1, game_time := 1, cur_time := 0, num_soldiers := 3,
    alive_soldiers := [{ sid := 1, addr := "a", position := (7, 7) }] }

/-- A round environment: a type-1 missile at `(4, 4)`, the lone soldier
answering that it was not hit. -/
def envDemo : RoundEnv :=
  { missile_type := 1, missile_pos := (4, 4), dirOrder := directions,
    responses := fun _ =>
      some { soldier_id := 1, was_hit := false, updated_position := (7, 7) },
    choiceIdx := 0 }

/-- The same environment every round. -/
def envsDemo : ℕ → RoundEnv := fun _ => envDemo

/-- `cDemo` after the `envsDemo` round: time is up, the commander
survived, the soldier answered. -/
def cDemoAfter : Commander :=
  { toSoldier :=
      { board_size := 8, sid := 0, speed := 1, position := (0, 0),
        was_hit := false, is_alive := true, is_promoted := false, game_over := true }
    time_to_missile := 1, game_time := 1, cur_time := 1, num_soldiers := 3,
    alive_soldiers := [{ sid := 1, addr := "a", position := (7, 7) }] }

/-! ## Theorems -/

/-- C2: for every point `p`, hazard kind `k ∈ {1,…,4}`, center `c` and
board size `N`, `is_position_in_blast_radius` is true iff `p` lies in
the axis-aligned square of half-width `k − 1` centered at `c`,
intersected with the board `[0, N)²`; in particular kind 1 covers
exactly the center cell (and each increment of `k` grows the square by
one cell per side, as the characterization shows). -/
theorem c2_blast_radius_characterization (p : ℤ × ℤ) (k : ℤ) (c : ℤ × ℤ) (N : ℤ)
    (hk1 : 1 ≤ k) (hk4 : k ≤ 4) :
    (is_position_in_blast_radius p k c N = true ↔ inBlastRadius_spec p k c N) ∧
    (is_position_in_blast_radius p 1 c N = true ↔ (p = c ∧ inBoundsZ p N)) := by
  constructor
  · simp only [is_position_in_blast_radius, decide_eq_true_eq, inBlastRadius_spec, inBoundsZ]
    omega
  · simp only [is_position_in_blast_radius, decide_eq_true_eq, inBoundsZ, Prod.ext_iff]
    omega

/-- Witness for C2 at `p = (5,5)`, `k = 2`, `c = (4,4)`, `N = 8`. -/
theorem c2_witness :
    (is_position_in_blast_radius (5, 5) 2 (4, 4) 8 = true ↔
      inBlastRadius_spec (5, 5) 2 (4, 4) 8) ∧
    (is_position_in_blast_radius (5, 5) 1 (4, 4) 8 = true ↔
      ((5, 5) : ℤ × ℤ) = (4, 4) ∧ inBoundsZ (5, 5) 8) :=
  c2_blast_radius_characterization (5, 5) 2 (4, 4) 8 (by decide) (by decide)

/-- The diagonal speed-decrement loop returns `none` exactly when no
effective speed `e ∈ [1, n]` keeps the displaced point on the board. -/
lemma diagSearch_eq_none_iff (position d : ℤ × ℤ) (N : ℤ) :
    ∀ n : ℕ, diagSearch position d N n = none ↔
      ∀ e : ℕ, 1 ≤ e → e ≤ n →
        ¬ inBoundsZ (position.1 + (e : ℤ) * d.1, position.2 + (e : ℤ) * d.2) N := by
  intro n
  induction n with
  | zero => simp [diagSearch]; omega
  | succ m ih =>
    simp only [diagSearch]
    split
    · rename_i hin
      simp only [reduceCtorEq, false_iff]
      intro h
      refine h (m + 1) (by omega) (le_refl _) ?_
      push_cast
      exact hin
    · rename_i hout
      rw [ih]
      constructor
      · intro h e h1 h2
        rcases Nat.lt_or_ge e (m + 1) with he | he
        · exact h e h1 (by omega)
        · have : e = m + 1 := by omega
          subst this
          push_cast
          exact hout
      · intro h e h1 h2
        exact h e h1 (by omega)

/-- When the diagonal loop succeeds it returns the displacement at the
largest effective speed `e ∈ [1, n]` that stays on the board. -/
lemma diagSearch_eq_some (position d : ℤ × ℤ) (N : ℤ) :
    ∀ (n : ℕ) (np : ℤ × ℤ), diagSearch position d N n = some np →
      ∃ e : ℕ, 1 ≤ e ∧ e ≤ n ∧
        np = (position.1 + (e : ℤ) * d.1, position.2 + (e : ℤ) * d.2) ∧
        inBoundsZ np N ∧
        ∀ f : ℕ, e < f → f ≤ n →
          ¬ inBoundsZ (position.1 + (f : ℤ) * d.1, position.2 + (f : ℤ) * d.2) N := by
  intro n
  induction n with
  | zero => simp [diagSearch]
  | succ m ih =>
    intro np h
    simp only [diagSearch] at h
    split at h
    · rename_i hin
      refine ⟨m + 1, by omega, le_refl _, ?_, ?_, ?_⟩
      · cases h
        push_cast
        rfl
      · cases h
        exact hin
      · intro f hf1 hf2
        omega
    · rename_i hout
      obtain ⟨e, he1, he2, hnp, hb, hmax⟩ := ih np h
      refine ⟨e, he1, by omega, hnp, hb, ?_⟩
      intro f hf1 hf2
      rcases Nat.lt_or_ge f (m + 1) with hf | hf
      · exact hmax f hf1 (by omega)
      · have : f = m + 1 := by omega
        subst this
        push_cast
        exact hout

/-- C1: for a unit of speed ≥ 1 and a diagonal direction (both
components nonzero), the evasion candidate uses the largest effective
speed `e ∈ [1, speed]` keeping `position + e·direction` on the board on
both axes; when no such `e ≥ 1` exists the direction is skipped
(`none`), and any produced candidate displaces the unit by exactly `e`
on each axis — the axes are never clamped independently. -/
theorem c1_diagonal_largest_effective_speed (position : ℤ × ℤ) (speed : ℕ)
    (d : ℤ × ℤ) (missile_type : ℤ) (missile_position : ℤ × ℤ) (board_size : ℤ)
    (hspeed : 1 ≤ speed) (hdx : d.1 ≠ 0) (hdy : d.2 ≠ 0) :
    ((∀ e : ℕ, 1 ≤ e → e ≤ speed →
        ¬ inBoundsZ (position.1 + (e : ℤ) * d.1, position.2 + (e : ℤ) * d.2) board_size) →
      tryDirection position speed d missile_type missile_position board_size = none) ∧
    (∀ np, tryDirection position speed d missile_type missile_position board_size = some np →
      ∃ e : ℕ, 1 ≤ e ∧ e ≤ speed ∧
        np = (position.1 + (e : ℤ) * d.1, position.2 + (e : ℤ) * d.2) ∧
        inBoundsZ np board_size ∧
        ∀ f : ℕ, e < f → f ≤ speed →
          ¬ inBoundsZ (position.1 + (f : ℤ) * d.1, position.2 + (f : ℤ) * d.2) board_size) := by
  constructor
  · intro h
    unfold tryDirection
    rw [if_pos ⟨hdx, hdy⟩]
    have hnone : diagSearch position d board_size speed = none :=
      (diagSearch_eq_none_iff position d board_size speed).mpr h
    rw [hnone]
  · intro np h
    unfold tryDirection at h
    rw [if_pos ⟨hdx, hdy⟩] at h
    rcases hs : diagSearch position d board_size speed with _ | np1
    · rw [hs] at h
      exact absurd h (by simp)
    · rw [hs] at h
      obtain ⟨e, he1, he2, hnp, hb, hmax⟩ := diagSearch_eq_some position d board_size speed np1 hs
      have hnp2 : np1 = np := by
        rcases Bool.eq_false_or_eq_true
            (is_position_in_blast_radius np1 missile_type missile_position board_size) with
          hb2 | hb2 <;> simp [hb2] at h
        exact h
      subst hnp2
      exact ⟨e, he1, he2, hnp, hb, hmax⟩

/-- Witness for C1: the scenario from the source comment — speed 4 at
`(6, 5)` on a 7×7 board moving towards `(-1, 1)` must use effective
speed 1 and land at `(5, 6)`, not a clamped point. -/
theorem c1_witness :
    ((∀ e : ℕ, 1 ≤ e → e ≤ 4 →
        ¬ inBoundsZ ((6 : ℤ) + (e : ℤ) * (-1), (5 : ℤ) + (e : ℤ) * 1) 7) →
      tryDirection (6, 5) 4 (-1, 1) 1 (0, 0) 7 = none) ∧
    (∀ np, tryDirection (6, 5) 4 (-1, 1) 1 (0, 0) 7 = some np →
      ∃ e : ℕ, 1 ≤ e ∧ e ≤ 4 ∧
        np = ((6 : ℤ) + (e : ℤ) * (-1), (5 : ℤ) + (e : ℤ) * 1) ∧
        inBoundsZ np 7 ∧
        ∀ f : ℕ, e < f → f ≤ 4 →
          ¬ inBoundsZ ((6 : ℤ) + (f : ℤ) * (-1), (5 : ℤ) + (f : ℤ) * 1) 7) :=
  c1_diagonal_largest_effective_speed (6, 5) 4 (-1, 1) 1 (0, 0) 7
    (by decide) (by decide) (by decide)

/-- C3 counterexample: a speed-0 soldier standing at the center of a
kind-1 hazard is *not* left with `alive = false` by the evasion call —
`take_shelter` only sets `was_hit`; `is_alive` stays `true` (it changes
at the next status query). -/
theorem c3_counterexample :
    (Soldier.take_shelter soldierDemo 1 (5, 5) directions).is_alive = true ∧
    (Soldier.take_shelter soldierDemo 1 (5, 5) directions).was_hit = true ∧
    (Soldier.take_shelter soldierDemo 1 (5, 5) directions).position = soldierDemo.position := by
  decide

/-- C3 (amended): one evasion call on an in-radius unit with speed 0
marks it hit (`was_hit = true`) and changes nothing else — in
particular the position is unchanged; the unit is then reported
eliminated (`is_alive = false`) when it next answers a round-status
query. -/
theorem c3_speed_zero_eliminated (s : Soldier) (missile_type : ℤ)
    (missile_position : ℤ × ℤ) (order : List (ℤ × ℤ))
    (hspeed : s.speed = 0)
    (hin : is_position_in_blast_radius s.position missile_type missile_position
      s.board_size = true) :
    Soldier.take_shelter s missile_type missile_position order = { s with was_hit := true } ∧
    ((War.RoundStatus
        (Soldier.take_shelter s missile_type missile_position order)).1).is_alive = false := by
  have h1 : Soldier.take_shelter s missile_type missile_position order =
      { s with was_hit := true } := by
    unfold Soldier.take_shelter
    rw [if_neg (by simp [hin]), if_pos hspeed]
  exact ⟨h1, by rw [h1]; rfl⟩

/-- Witness for C3 (amended) at the concrete speed-0 soldier. -/
theorem c3_witness :
    Soldier.take_shelter soldierDemo 1 (5, 5) directions =
      { soldierDemo with was_hit := true } ∧
    ((War.RoundStatus (Soldier.take_shelter soldierDemo 1 (5, 5) directions)).1).is_alive =
      false :=
  c3_speed_zero_eliminated soldierDemo 1 (5, 5) directions (by decide) (by decide)

/-- The direction loop fails exactly when every direction of the
sampled order yields no accepted candidate. -/
lemma findEscape_eq_none_iff (position : ℤ × ℤ) (speed : ℕ) (missile_type : ℤ)
    (missile_position : ℤ × ℤ) (board_size : ℤ) :
    ∀ order : List (ℤ × ℤ),
      findEscape position speed missile_type missile_position board_size order = none ↔
      ∀ d ∈ order,
        tryDirection position speed d missile_type missile_position board_size = none := by
  intro order
  induction order with
  | nil => simp [findEscape]
  | cons d ds ih =>
    simp only [findEscape, List.mem_cons]
    rcases hd : tryDirection position speed d missile_type missile_position board_size with
      _ | np
    · simp only [reduceCtorEq]
      rw [ih]
      constructor
      · intro h d1 hd1
        rcases hd1 with rfl | hd1
        · exact hd
        · exact h d1 hd1
      · intro h d1 hd1
        exact h d1 (Or.inr hd1)
    · simp only [reduceCtorEq, false_iff]
      intro h
      exact absurd (h d (Or.inl rfl)) (by simp [hd])

/-- C10: an evasion call on an in-radius unit with speed ≥ 1 recomputes
the hit flag from scratch — afterwards `was_hit` is true iff no
direction of the sampled order yielded a safe in-bounds candidate,
whatever the flag was before — and the evasion call never touches
`is_alive`; that flag is set to the negation of `was_hit` only when the
unit answers a status query. -/
theorem c10_hit_flag_recomputed (s : Soldier) (missile_type : ℤ)
    (missile_position : ℤ × ℤ) (order : List (ℤ × ℤ))
    (hin : is_position_in_blast_radius s.position missile_type missile_position
      s.board_size = true)
    (hspeed : s.speed ≠ 0) :
    ((Soldier.take_shelter s missile_type missile_position order).was_hit = true ↔
      ∀ d ∈ order,
        tryDirection s.position s.speed d missile_type missile_position s.board_size = none) ∧
    (Soldier.take_shelter s missile_type missile_position order).is_alive = s.is_alive ∧
    (∀ s2 : Soldier, ((War.RoundStatus s2).1).is_alive = !s2.was_hit) := by
  refine ⟨?_, ?_, fun s2 => rfl⟩
  · unfold Soldier.take_shelter
    rw [if_neg (by simp [hin]), if_neg hspeed]
    rcases hf : findEscape s.position s.speed missile_type missile_position s.board_size order
      with _ | np
    · simp only [Bool.true_eq]
      rw [← findEscape_eq_none_iff]
      simp [hf]
    · simp only [Bool.false_eq_true, false_iff]
      rw [← findEscape_eq_none_iff]
      simp [hf]
  · unfold Soldier.take_shelter
    rw [if_neg (by simp [hin]), if_neg hspeed]
    rcases findEscape s.position s.speed missile_type missile_position s.board_size order
      with _ | np <;> rfl

/-- Witness for C10: a speed-1 unit at the center of a kind-1 hazard,
previously marked hit, escapes and is marked un-hit (the first sampled
direction already yields a safe cell). -/
theorem c10_witness :
    (((Soldier.take_shelter
        { soldierDemo with speed := 1, was_hit := true } 1 (5, 5) directions).was_hit = true) ↔
      ∀ d ∈ directions, tryDirection (5, 5) 1 d 1 (5, 5) 8 = none) ∧
    (Soldier.take_shelter
        { soldierDemo with speed := 1, was_hit := true } 1 (5, 5) directions).is_alive =
      ({ soldierDemo with speed := 1, was_hit := true } : Soldier).is_alive ∧
    (∀ s2 : Soldier, ((War.RoundStatus s2).1).is_alive = !s2.was_hit) :=
  c10_hit_flag_recomputed { soldierDemo with speed := 1, was_hit := true } 1 (5, 5) directions
    (by decide) (by decide)

/-- Any candidate accepted by one direction attempt lies on the board
(diagonal candidates are bounds-checked, axis-aligned ones are
clamped into `[0, board_size)`). -/
lemma tryDirection_some_inBounds (position : ℤ × ℤ) (speed : ℕ) (d : ℤ × ℤ)
    (missile_type : ℤ) (missile_position : ℤ × ℤ) (board_size : ℤ) (np : ℤ × ℤ)
    (hN : 0 < board_size)
    (h : tryDirection position speed d missile_type missile_position board_size = some np) :
    inBoundsZ np board_size := by
  unfold tryDirection at h
  split at h
  · rcases hs : diagSearch position d board_size speed with _ | np1
    · rw [hs] at h
      exact absurd h (by simp)
    · rw [hs] at h
      obtain ⟨e, _, _, _, hb, _⟩ := diagSearch_eq_some position d board_size speed np1 hs
      rcases Bool.eq_false_or_eq_true
          (is_position_in_blast_radius np1 missile_type missile_position board_size) with
        hb2 | hb2 <;> simp [hb2] at h
      exact h ▸ hb
  · split at h
    · exact absurd h (by simp)
    · rcases Bool.eq_false_or_eq_true
          (is_position_in_blast_radius
            (max 0 (min (position.1 + (speed : ℤ) * d.1) (board_size - 1)),
             max 0 (min (position.2 + (speed : ℤ) * d.2) (board_size - 1)))
            missile_type missile_position board_size) with hb2 | hb2 <;> simp [hb2] at h
      refine h ▸ ⟨le_max_left 0 _, ?_, le_max_left 0 _, ?_⟩
      · exact max_lt hN (lt_of_le_of_lt (min_le_right _ _) (by omega))
      · exact max_lt hN (lt_of_le_of_lt (min_le_right _ _) (by omega))

/-- Any position accepted by the whole direction loop lies on the
board. -/
lemma findEscape_some_inBounds (position : ℤ × ℤ) (speed : ℕ) (missile_type : ℤ)
    (missile_position : ℤ × ℤ) (board_size : ℤ) (hN : 0 < board_size) :
    ∀ (order : List (ℤ × ℤ)) (np : ℤ × ℤ),
      findEscape position speed missile_type missile_position board_size order = some np →
      inBoundsZ np board_size := by
  intro order
  induction order with
  | nil => simp [findEscape]
  | cons d ds ih =>
    intro np h
    simp only [findEscape] at h
    rcases hd : tryDirection position speed d missile_type missile_position board_size with
      _ | np1
    · rw [hd] at h
      exact ih np h
    · rw [hd] at h
      have h2 : np1 = np := by injection h
      exact h2 ▸ tryDirection_some_inBounds position speed d missile_type missile_position
        board_size np1 hN hd

/-- The redraw loop of `Commander.set_position` only ever holds a drawn
cell, so its result is one of the draws. -/
lemma set_position_foldl_inBounds (draws : ℕ → ℤ × ℤ) (N : ℤ)
    (hdraws : ∀ i, inBoundsZ (draws i) N) :
    ∀ (l : List SoldierMetadata) (acc : (ℤ × ℤ) × ℕ), inBoundsZ acc.1 N →
      inBoundsZ ((l.foldl
        (fun (acc : (ℤ × ℤ) × ℕ) m =>
          if acc.1 = m.position then (draws acc.2, acc.2 + 1) else acc) acc)).1 N := by
  intro l
  induction l with
  | nil => intro acc hacc; exact hacc
  | cons m ms ih =>
    intro acc hacc
    simp only [List.foldl_cons]
    by_cases hm : acc.1 = m.position
    · rw [if_pos hm]
      exact ih _ (hdraws acc.2)
    · rw [if_neg hm]
      exact ih _ hacc

/-- C7: a unit's position has both coordinates in `[0, board_size)`:
the initial placement (`StartupStatus` for a soldier, `set_position`
for the commander, both drawing with `randrange(0, board_size)`) yields
an on-board point, and every evasion call, for any hazard kind and
center, either leaves the position unchanged or moves it to a point
inside the board. -/
theorem c7_position_in_bounds (s : Soldier) (soldier_id board_size rx ry : ℤ)
    (c : Commander) (draws : ℕ → ℤ × ℤ) (missile_type : ℤ) (missile_position : ℤ × ℤ)
    (order : List (ℤ × ℤ)) :
    (0 ≤ rx → rx < board_size → 0 ≤ ry → ry < board_size →
      inBoundsZ ((War.StartupStatus s soldier_id board_size rx ry).1.position) board_size) ∧
    ((∀ i, inBoundsZ (draws i) c.board_size) →
      inBoundsZ ((Commander.set_position c draws).position) c.board_size) ∧
    (0 < s.board_size → inBoundsZ s.position s.board_size →
      ((Soldier.take_shelter s missile_type missile_position order).position = s.position ∨
        inBoundsZ ((Soldier.take_shelter s missile_type missile_position order).position)
          s.board_size) ∧
      inBoundsZ ((Soldier.take_shelter s missile_type missile_position order).position)
        s.board_size) := by
  refine ⟨fun h1 h2 h3 h4 => ⟨h1, h2, h3, h4⟩, ?_, ?_⟩
  · intro hdraws
    exact set_position_foldl_inBounds draws c.board_size hdraws c.alive_soldiers
      (draws 0, 1) (hdraws 0)
  · intro hN hpos
    have hmain :
        (Soldier.take_shelter s missile_type missile_position order).position = s.position ∨
        inBoundsZ ((Soldier.take_shelter s missile_type missile_position order).position)
          s.board_size := by
      unfold Soldier.take_shelter
      split
      · exact Or.inl rfl
      · split
        · exact Or.inl rfl
        · rcases hf : findEscape s.position s.speed missile_type missile_position
              s.board_size order with _ | np
          · exact Or.inl rfl
          · refine Or.inr ?_
            have := findEscape_some_inBounds s.position s.speed missile_type
              missile_position s.board_size hN order np hf
            simpa using this
    refine ⟨hmain, ?_⟩
    rcases hmain with h | h
    · rw [h]
      exact hpos
    · exact h

/-- Witness for C7 at concrete draws, a concrete commander and the
speed-0 soldier. -/
theorem c7_witness :
    inBoundsZ ((War.StartupStatus soldierDemo 1 8 3 4).1.position) 8 ∧
    inBoundsZ ((Commander.set_position cDemo (fun _ => (2, 2))).position) cDemo.board_size ∧
    ((Soldier.take_shelter soldierDemo 1 (5, 5) directions).position = soldierDemo.position ∨
      inBoundsZ ((Soldier.take_shelter soldierDemo 1 (5, 5) directions).position)
        soldierDemo.board_size) ∧
    inBoundsZ ((Soldier.take_shelter soldierDemo 1 (5, 5) directions).position)
      soldierDemo.board_size := by
  have h := c7_position_in_bounds soldierDemo 1 8 3 4 cDemo (fun _ => (2, 2)) 1 (5, 5)
    directions
  exact ⟨h.1 (by decide) (by decide) (by decide) (by decide),
    h.2.1 (fun i => by decide), h.2.2 (by decide) (by decide)⟩

/-- C4 counterexample: with a one-member roster, an unreachable member
makes the status collection raise (`Except.error`), which is *not* the
behaviour on a member reporting `was_hit = true` (roster becomes empty
and the round proceeds). -/
theorem c4_counterexample :
    Commander.send_round_status_message [metaDemo] (fun _ => none) = Except.error () ∧
    Commander.send_round_status_message [metaDemo]
      (fun _ => some { soldier_id := 1, was_hit := true, updated_position := (0, 0) }) =
      Except.ok [] :=
  ⟨rfl, rfl⟩

/-- If any roster member's status call raises, the whole collection
raises. -/
lemma collectStatus_error_of_none (call : SoldierMetadata → Option RoundStatusResponse) :
    ∀ roster : List SoldierMetadata, (∃ m ∈ roster, call m = none) →
      collectStatus call roster = Except.error () := by
  intro roster
  induction roster with
  | nil => simp
  | cons m0 ms ih =>
    intro ⟨m, hm, hnone⟩
    simp only [collectStatus]
    rcases List.mem_cons.mp hm with rfl | hm2
    · rw [hnone]
    · rcases hc : call m0 with _ | resp
      · rfl
      · rw [ih ⟨m, hm2, hnone⟩]

/-- Every member that reported `was_hit = true` has its id collected in
`to_delete`. -/
lemma collectStatus_hit_mem_dels (call : SoldierMetadata → Option RoundStatusResponse) :
    ∀ (roster ms : List SoldierMetadata) (dels : List ℤ),
      collectStatus call roster = Except.ok (ms, dels) →
      ∀ m ∈ roster, ∀ resp, call m = some resp → resp.was_hit = true → m.sid ∈ dels := by
  intro roster
  induction roster with
  | nil => simp
  | cons m0 ms0 ih =>
    intro ms dels h m hm resp hresp hhit
    simp only [collectStatus] at h
    rcases hc : call m0 with _ | resp0
    · rw [hc] at h
      exact absurd h (by simp)
    · rw [hc] at h
      rcases hrec : collectStatus call ms0 with e | p
      · rw [hrec] at h
        exact absurd h (by cases e; simp)
      · obtain ⟨ms1, dels1⟩ := p
        rw [hrec] at h
        dsimp only at h
        rcases List.mem_cons.mp hm with rfl | hm2
        · have hre : resp0 = resp := by rw [hc] at hresp; injection hresp
          subst hre
          rw [if_pos hhit] at h
          cases h
          exact List.mem_cons_self _ _
        · have hin : m.sid ∈ dels1 := ih ms1 dels1 hrec m hm2 resp hresp hhit
          rcases Bool.eq_false_or_eq_true resp0.was_hit with hb | hb
          · rw [if_pos hb] at h
            cases h
            exact List.mem_cons_of_mem _ hin
          · rw [if_neg (by simp [hb])] at h
            cases h
            exact hin

/-- C4 (amended): during status collection a member reporting
`was_hit = true` is removed from the roster; but a member that is
*unreachable* is not treated that way — its failed call propagates out
of the collection (`Except.error`), so the round does not proceed. -/
theorem c4_unreachable_is_fatal (roster : List SoldierMetadata)
    (call : SoldierMetadata → Option RoundStatusResponse) :
    ((∃ m ∈ roster, call m = none) →
      Commander.send_round_status_message roster call = Except.error ()) ∧
    (∀ roster1, Commander.send_round_status_message roster call = Except.ok roster1 →
      ∀ m ∈ roster, ∀ resp, call m = some resp → resp.was_hit = true →
        ∀ m1 ∈ roster1, m1.sid ≠ m.sid) := by
  constructor
  · intro h
    unfold Commander.send_round_status_message
    rw [collectStatus_error_of_none call roster h]
  · intro roster1 h m hm resp hresp hhit m1 hm1
    unfold Commander.send_round_status_message at h
    rcases hc : collectStatus call roster with e | p
    · rw [hc] at h
      exact absurd h (by cases e; simp)
    · rw [hc] at h
      have hdel : m.sid ∈ p.2 :=
        collectStatus_hit_mem_dels call roster p.1 p.2 (by rw [hc]) m hm resp hresp hhit
      have hroster : roster1 = p.1.filter (fun m2 => decide (m2.sid ∉ p.2)) := by
        injection h with h2
        exact h2.symm
      rw [hroster] at hm1
      have := (List.mem_filter.mp hm1).2
      intro hEq
      rw [hEq] at this
      simp only [decide_eq_true_eq] at this
      exact this hdel

/-- Witness for C4 (amended): the one-member roster with an unreachable
member raises; with a hit report, the surviving roster (empty) contains
no entry with the hit member's id. -/
theorem c4_witness :
    Commander.send_round_status_message [metaDemo] (fun _ => none) = Except.error () ∧
    (∀ m1 ∈ ([] : List SoldierMetadata), m1.sid ≠ metaDemo.sid) :=
  ⟨(c4_unreachable_is_fatal [metaDemo] (fun _ => none)).1
      ⟨metaDemo, List.mem_singleton.mpr rfl, rfl⟩,
    (c4_unreachable_is_fatal [metaDemo]
        (fun _ => some { soldier_id := 1, was_hit := true, updated_position := (0, 0) })).2
      [] rfl metaDemo (List.mem_singleton.mpr rfl)
      { soldier_id := 1, was_hit := true, updated_position := (0, 0) } rfl rfl⟩

/-- C5: the promotion call ships the roster minus every entry carrying
the chosen member's id; the promoted unit's reconstructed roster never
contains its own former id; and when the payload already excludes that
id (as the sender guarantees), the receiver's own filter keeps the
payload intact. -/
theorem c5_handoff_excludes_self (roster : List SoldierMetadata)
    (chosen : SoldierMetadata) (s : Soldier) (req : NewCommanderRequest)
    (speedDraw : ℕ) :
    (∀ m ∈ Commander.send_new_commander_payload roster chosen, m.sid ≠ chosen.sid) ∧
    (∀ m ∈ ((War.NewCommander s req speedDraw).2).alive_soldiers, m.sid ≠ s.sid) ∧
    (s.sid = chosen.sid → req.alive_soldiers = Commander.send_new_commander_payload roster chosen →
      ((War.NewCommander s req speedDraw).2).alive_soldiers = req.alive_soldiers) := by
  refine ⟨?_, ?_, ?_⟩
  · intro m hm
    have := (List.mem_filter.mp hm).2
    simpa using this
  · intro m hm
    have := (List.mem_filter.mp hm).2
    simpa using this
  · intro hsid hreq
    show req.alive_soldiers.filter (fun m => decide (m.sid ≠ s.sid)) = req.alive_soldiers
    rw [List.filter_eq_self]
    intro m hm
    rw [hreq] at hm
    have := (List.mem_filter.mp hm).2
    simp only [decide_eq_true_eq] at this ⊢
    rw [hsid]
    exact this

/-- Witness for C5 on the two-member roster, promoting member 2. -/
theorem c5_witness :
    (∀ m ∈ Commander.send_new_commander_payload rosterDemo chosenDemo, m.sid ≠ chosenDemo.sid) ∧
    (∀ m ∈ ((War.NewCommander promotedDemo reqDemo2 1).2).alive_soldiers,
      m.sid ≠ promotedDemo.sid) ∧
    ((War.NewCommander promotedDemo reqDemo2 1).2).alive_soldiers = reqDemo2.alive_soldiers :=
  ⟨(c5_handoff_excludes_self rosterDemo chosenDemo promotedDemo reqDemo2 1).1,
    (c5_handoff_excludes_self rosterDemo chosenDemo promotedDemo reqDemo2 1).2.1,
    (c5_handoff_excludes_self rosterDemo chosenDemo promotedDemo reqDemo2 1).2.2 rfl rfl⟩

/-- C6, evaluating the code at the failing configuration `M = 2`,
`N = 8`, `t = 1`, `T = 10`: the too-few-soldiers error is reported, yet
the process still proceeds to start (the `M` check is not followed by
an exit, unlike the board-size and cadence checks). -/
theorem c6_too_few_soldiers_not_fatal :
    commander_startup_checks 2 8 1 10 = ([StartupError.tooFewSoldiers], true) ∧
    commander_startup_checks 3 7 1 10 = ([StartupError.boardTooSmall], false) ∧
    commander_startup_checks 3 8 11 10 = ([StartupError.cadenceExceedsTime], false) := by
  decide

/-- C9 counterexample: promotion does change the acting unit's speed —
a soldier created with speed 4 is promoted and the resulting commander
runs with a freshly drawn speed (here 0): `Commander.__init__` calls
`Soldier.__init__`, which redraws, and `War.NewCommander` copies the
old position but not the old speed. -/
theorem c9_counterexample :
    soldierSpeed4.speed = 4 ∧
    ((War.NewCommander soldierSpeed4 reqDemo 0).2).speed = 0 ∧
    ((War.NewCommander soldierSpeed4 reqDemo 0).2).position = soldierSpeed4.position := by
  decide

/-- Evasion never changes the unit's speed. -/
lemma take_shelter_speed (s : Soldier) (missile_type : ℤ) (missile_position : ℤ × ℤ)
    (order : List (ℤ × ℤ)) :
    (Soldier.take_shelter s missile_type missile_position order).speed = s.speed := by
  unfold Soldier.take_shelter
  split
  · rfl
  · split
    · rfl
    · rcases findEscape s.position s.speed missile_type missile_position s.board_size order
        with _ | np <;> rfl

/-- C9 (amended): the speed drawn at `Soldier` creation is an integer
in `[0, 4]` and is never changed by evasion or by a status query; but a
promotion builds a fresh `Commander` whose speed is a *new* draw in
`[0, 4]`, independent of the soldier's former speed (only the position
is carried over). -/
theorem c9_speed_frame (speedDraw : ℕ) (s : Soldier) (missile_type : ℤ)
    (missile_position : ℤ × ℤ) (order : List (ℤ × ℤ)) (req : NewCommanderRequest)
    (hdraw : speedDraw ≤ MAX_SPEED) :
    ((Soldier.init speedDraw).speed = speedDraw ∧ (Soldier.init speedDraw).speed ≤ MAX_SPEED) ∧
    (Soldier.take_shelter s missile_type missile_position order).speed = s.speed ∧
    ((War.RoundStatus s).1).speed = s.speed ∧
    ((War.NewCommander s req speedDraw).2).speed = speedDraw ∧
    ((War.NewCommander s req speedDraw).2).position = s.position := by
  exact ⟨⟨rfl, hdraw⟩, take_shelter_speed s missile_type missile_position order, rfl, rfl, rfl⟩

/-- Witness for C9 (amended) at draw 2 on the speed-4 soldier. -/
theorem c9_witness :
    ((Soldier.init 2).speed = 2 ∧ (Soldier.init 2).speed ≤ MAX_SPEED) ∧
    (Soldier.take_shelter soldierSpeed4 1 (5, 5) directions).speed = soldierSpeed4.speed ∧
    ((War.RoundStatus soldierSpeed4).1).speed = soldierSpeed4.speed ∧
    ((War.NewCommander soldierSpeed4 reqDemo 2).2).speed = 2 ∧
    ((War.NewCommander soldierSpeed4 reqDemo 2).2).position = soldierSpeed4.position :=
  c9_speed_frame 2 soldierSpeed4 1 (5, 5) directions reqDemo (by decide)

/-- A successful round emits exactly one missile notification per
roster member, and ends with `game_over` set whenever the advanced
clock has reached the configured total. -/
lemma roundStep_ok (c : Commander) (env : RoundEnv) (c1 : Commander) (evs : List Event)
    (h : roundStep c env = Except.ok (c1, evs)) :
    evs = c.alive_soldiers.map
      (fun m => Event.missileNotify m.sid env.missile_type env.missile_pos) ∧
    (c1.game_time ≤ c1.cur_time → c1.game_over = true) := by
  unfold roundStep at h
  dsimp only at h
  rcases hr : Commander.send_round_status_message c.alive_soldiers env.responses with e | roster1
  · rw [hr] at h
    exact absurd h (by cases e; simp)
  · rw [hr] at h
    dsimp only at h
    injection h with h2
    injection h2 with hc1 hevs
    subst hevs
    subst hc1
    refine ⟨rfl, ?_⟩
    split
    · intro _
      rfl
    · rename_i hn
      intro hh
      exact absurd hh hn

/-- C8: if a round leaves the leader alive with the elapsed time at or
past the configured total, the loop stops (that round's `game_over`
check fires), the leader issues one `GameOver` call to each remaining
roster member and finishes normally — no further round (hence no
further missile fan-out) follows; under distinct roster ids each
remaining member receives the terminate call exactly once. -/
theorem c8_terminate_on_time (envs : ℕ → RoundEnv) (fuel k : ℕ) (c c1 : Commander)
    (evs : List Event)
    (h1 : c.game_over = false) (h2 : c.is_alive = true)
    (hstep : roundStep c (envs k) = Except.ok (c1, evs))
    (h3 : c1.is_alive = true) (h4 : c1.game_time ≤ c1.cur_time) :
    (Commander.run_game_loop envs (fuel + 2) k c =
      (RunOutcome.finished c1,
        evs ++ c1.alive_soldiers.map (fun m => Event.gameOver m.sid))) ∧
    ((c1.alive_soldiers.map (fun m => m.sid)).Nodup →
      ∀ m ∈ c1.alive_soldiers,
        (evs ++ c1.alive_soldiers.map (fun m2 => Event.gameOver m2.sid)).count
          (Event.gameOver m.sid) = 1) := by
  obtain ⟨hevs, hgo⟩ := roundStep_ok c (envs k) c1 evs hstep
  have hgo2 : c1.game_over = true := hgo h4
  have step2 : Commander.run_game_loop envs (fuel + 1) (k + 1) c1 =
      (RunOutcome.finished c1, c1.alive_soldiers.map (fun m => Event.gameOver m.sid)) := by
    rw [Commander.run_game_loop]
    rw [if_neg (by simp [hgo2])]
    rw [if_pos h3]
  constructor
  · rw [show fuel + 2 = fuel + 1 + 1 from rfl]
    rw [Commander.run_game_loop]
    rw [if_pos ⟨h1, h2⟩, hstep]
    dsimp only
    rw [step2]
  · intro hnodup m hm
    rw [List.count_append]
    have h0 : evs.count (Event.gameOver m.sid) = 0 := by
      rw [hevs, List.count_eq_zero]
      intro hmem
      obtain ⟨x, _, hEq⟩ := List.mem_map.mp hmem
      exact absurd hEq (by simp)
    have hinj : Function.Injective Event.gameOver := fun a b hab => by injection hab
    have hmap : c1.alive_soldiers.map (fun m2 => Event.gameOver m2.sid) =
        (c1.alive_soldiers.map (fun m2 => m2.sid)).map Event.gameOver := by
      rw [List.map_map]
      rfl
    rw [h0, hmap, List.count_map_of_injective _ Event.gameOver hinj m.sid]
    rw [List.count_eq_one_of_mem hnodup (List.mem_map.mpr ⟨m, hm, rfl⟩)]

/-- Witness for C8: the one-soldier commander reaches the time limit
alive after one round; the run ends with exactly the round's missile
notification followed by one `GameOver` call to the surviving member. -/
theorem c8_witness :
    (Commander.run_game_loop envsDemo 2 0 cDemo =
      (RunOutcome.finished cDemoAfter,
        [Event.missileNotify 1 1 (4, 4), Event.gameOver 1])) ∧
    ([Event.missileNotify 1 1 (4, 4), Event.gameOver 1].count (Event.gameOver 1) = 1) := by
  have h := c8_terminate_on_time envsDemo 0 0 cDemo cDemoAfter
    [Event.missileNotify 1 1 (4, 4)] rfl rfl rfl rfl (by decide)
  exact ⟨h.1, h.2 (by decide) { sid := 1, addr := "a", position := (7, 7) }
    (List.mem_singleton.mpr rfl)⟩

end WarGame
